import Mathlib

/-!
Verification development for the canary benchmarking orchestrator
(`canary/MeasureTransferRate.cpp`).

The core of the source is `MeasureTransferRate::PerformMeasurement`: a
bounded-concurrency transfer issuance loop (with an in-flight counter, a
completed counter and two condition-variable waits), wrapped in a
role-dependent preamble/postamble (coordinator / worker / standalone), plus
a self-rescheduling metrics pulse task (`s_PulseMetricsTask`).

The issuance loop is embedded as a small-step labelled transition system:
the issuing thread's program points are explicit phases, and transfer
completions (the `notifyTransferFinished` closure, which may run on any
execution context) are separate steps that can interleave anywhere.
Straight-line role branches are embedded as executable trace-producing
functions.
-/

namespace Canary

/-- `AWS_ERROR_SUCCESS` from aws-c-common: the zero error code. -/
def AWS_ERROR_SUCCESS : Int := 0

/-- `INT64_MAX`, used as the key-counter wrap value (line 102/108). -/
def INT64_MAX : Nat := 2 ^ 63 - 1

/-- `MeasureTransferRate::AllocationMetricFrequency` (5000 milliseconds, line 17). -/
def AllocationMetricFrequencyMS : Nat := 5000

/-- `aws_timestamp_convert(ms, AWS_TIMESTAMP_MILLIS, AWS_TIMESTAMP_NANOS, NULL)`:
milliseconds to nanoseconds. -/
def aws_timestamp_convert_ms_to_ns (ms : Nat) : Nat := ms * 1000000

/-- `MeasureTransferRate::AllocationMetricFrequencyNS` (lines 18-22). -/
def AllocationMetricFrequencyNS : Nat :=
  aws_timestamp_convert_ms_to_ns AllocationMetricFrequencyMS

/-- The slice of `CanaryAppOptions` that `PerformMeasurement` and the
constructor read: process role booleans and the child process index.
In the source the role check order is `isParentProcess` first (line 55),
then `isChildProcess` (line 75), else standalone (line 84). -/
structure CanaryOptions where
  isParentProcess : Bool
  isChildProcess : Bool
  childProcessIndex : Nat
deriving Repr, DecidableEq

/-- The `MeasurementFlags` bit set, as the two booleans the code tests:
`(flags & DontWarmDNSCache) == 0` and `(flags & NoFileSuffix) == 0`.
The enum's numeric bit values live in the header (outside this slice);
only the two membership tests matter to the code here. -/
structure MeasurementFlags where
  dontWarmDNSCache : Bool
  noFileSuffix : Bool
deriving Repr, DecidableEq

/-- The arguments of `PerformMeasurement` (lines 42-50) that determine its
behavior, apart from the transport/transfer function collaborators. -/
structure MeasurementConfig where
  filenamePrefix : String
  keyPrefix : String
  numTransfers : Nat
  numConcurrentTransfers : Nat
  objectSize : Nat
  flags : MeasurementFlags
deriving Repr, DecidableEq

/-- `String addressKey = String() + keyPrefix + "address"` (line 52). -/
def addressKey (cfg : MeasurementConfig) : String := cfg.keyPrefix ++ "address"

/-- `String finishedKey = String() + keyPrefix + "finished"` (line 53). -/
def finishedKey (cfg : MeasurementConfig) : String := cfg.keyPrefix ++ "finished"

/-- Observable events of one `PerformMeasurement` execution: calls into the
transport facade, the key/value exchange channel, the injected transfer
function, and the error log in the completion closure. -/
inductive Event where
  | warmDNSCache (n : Nat)
  | writeToChildProcess (i : Nat) (key val : String)
  | readFromChildProcess (i : Nat) (key : String)
  | readFromParentProcess (key val : String)
  | seedAddressCache (addr : String)
  | spawnConnectionManagers
  | invokeTransfer (i : Nat) (key : String)
  | logTransferError (code : Int)
  | transferCompleted (i : Nat) (code : Int)
  | writeToParentProcess (key val : String)
deriving Repr, DecidableEq

/-- Program points of the issuing thread inside the loop of lines 104-159:
at the `for` head, in the per-iteration back-pressure wait (lines 151-154),
in the final wait-for-all (lines 157-159), or past it. -/
inductive LoopPhase where
  | atLoopHead
  | waitSlot
  | waitAll
  | done
deriving Repr, DecidableEq

/-- State of one issuance-loop execution.  `idx` is the loop variable `i`;
`counter` is the key counter (line 102); `numInProgress` / `completed` are
the atomics `numInProgress` / `numCompleted`; `pending` lists the indices
of transfers that were issued but whose `notifyTransferFinished` closure
has not run yet; `records` holds each created Transfer Record's success
flag (`none` = pending, i.e. `SetTransferSuccess` not called yet). -/
structure LoopState where
  idx : Nat
  counter : Nat
  numInProgress : Nat
  completed : Nat
  pending : List Nat
  records : List (Option Bool)
  phase : LoopPhase
deriving Repr, DecidableEq

/-- `uint64_t counter = INT64_MAX - (int64_t)childProcessIndex` (line 102). -/
def initCounter (opts : CanaryOptions) : Nat := INT64_MAX - opts.childProcessIndex

/-- Loop state on entering line 104. -/
def initLoopState (opts : CanaryOptions) : LoopState :=
  { idx := 0
    counter := initCounter opts
    numInProgress := 0
    completed := 0
    pending := []
    records := []
    phase := LoopPhase.atLoopHead }

/-- The wrap check of lines 106-109: `if (counter == 0) counter = INT64_MAX`. -/
def wrapCounter (c : Nat) : Nat := if c = 0 then INT64_MAX else c

/-- The key built at lines 111-119: the filename prefix, followed by the
current counter value unless the `NoFileSuffix` flag is set. -/
def issueKey (cfg : MeasurementConfig) (c : Nat) : String :=
  cfg.filenamePrefix ++ (if cfg.flags.noFileSuffix then "" else toString c)

/-- Counter value after one iteration that started with (wrapped) value `c`:
`keyStream << counter--` decrements only when the suffix is emitted. -/
def nextCounter (cfg : MeasurementConfig) (c : Nat) : Nat :=
  if cfg.flags.noFileSuffix then c else c - 1

/-- A completion effect: what the transfer function's completion callback
does to the Transfer Record's success flag before it calls
`notifyTransferFinished`. -/
def CompletionEffect : Type := Option Bool → Int → Option Bool

/-- The single-part object transfer functions (`PutObject` callback, lines
341-344, and `GetObject` callback, lines 390-393): call
`SetTransferSuccess(errorCode == AWS_ERROR_SUCCESS)` and then notify. -/
def singlePartTransferEffect : CompletionEffect :=
  fun _ errorCode => some (decide (errorCode = AWS_ERROR_SUCCESS))

/-- The HTTP transfer function of `MeasureHttpTransfer` (lines 204-282):
its `onStreamComplete` and connection-failure paths call
`notifyTransferFinished` but never call `SetTransferSuccess`, so the
record's success flag is left untouched. -/
def httpTransferEffect : CompletionEffect := fun f _ => f

/-- `AWS_ERROR_UNKNOWN` from aws-c-common.  Its numeric value is defined
outside this slice; the code only relies on it being a non-success code,
so it is modelled as an arbitrary nonzero value. -/
def AWS_ERROR_UNKNOWN : Int := 1

/-- The error code passed to `notifyTransferFinished` by the HTTP
`onStreamComplete` handler (lines 231-260): a successful stream whose
response status is not 200 is turned into `AWS_ERROR_UNKNOWN`. -/
def httpStreamCompleteCode (error : Int) (responseStatus : Int) : Int :=
  if error = AWS_ERROR_SUCCESS ∧ responseStatus ≠ 200 then AWS_ERROR_UNKNOWN else error

/-- One step of the issuance loop, labelled with the events it emits.

* `issue`: one iteration body up to the transfer-function call
  (lines 106-149): wrap check, key construction, `++numInProgress`,
  invocation of the transfer function; the thread then sits in the
  back-pressure wait.
* `exitLoop`: the `for` condition fails; the thread moves to the final
  wait (line 157).
* `complete`: some issued-but-unnotified transfer `j`'s completion
  callback runs (transfer-function callback plus the
  `notifyTransferFinished` closure, lines 123-138): it applies the
  completion effect to record `j`, logs when the code is non-success,
  decrements `numInProgress`, increments `numCompleted`.  It can
  interleave with any phase of the issuing thread.
* `slotOk`: the back-pressure wait's predicate
  `numInProgress < numConcurrentTransfers` (line 153) holds, so the
  issuing thread returns to the loop head.
* `allOk`: the final wait's predicate `numCompleted >= numTransfers`
  (line 159) holds, so `PerformMeasurement`'s loop part is done. -/
inductive LoopStep (cfg : MeasurementConfig) (eff : CompletionEffect) :
    LoopState → List Event → LoopState → Prop where
  | issue (s : LoopState)
      (hph : s.phase = LoopPhase.atLoopHead)
      (hlt : s.idx < cfg.numTransfers) :
      LoopStep cfg eff s
        [Event.invokeTransfer s.idx (issueKey cfg (wrapCounter s.counter))]
        { s with
            idx := s.idx + 1
            counter := nextCounter cfg (wrapCounter s.counter)
            numInProgress := s.numInProgress + 1
            pending := s.pending ++ [s.idx]
            records := s.records ++ [none]
            phase := LoopPhase.waitSlot }
  | exitLoop (s : LoopState)
      (hph : s.phase = LoopPhase.atLoopHead)
      (hge : ¬ s.idx < cfg.numTransfers) :
      LoopStep cfg eff s [] { s with phase := LoopPhase.waitAll }
  | complete (s : LoopState) (j : Nat) (c : Int)
      (hj : j ∈ s.pending) :
      LoopStep cfg eff s
        ((if c ≠ AWS_ERROR_SUCCESS then [Event.logTransferError c] else []) ++
          [Event.transferCompleted j c])
        { s with
            numInProgress := s.numInProgress - 1
            completed := s.completed + 1
            pending := s.pending.erase j
            records := s.records.set j (eff (s.records.getD j none) c) }
  | slotOk (s : LoopState)
      (hph : s.phase = LoopPhase.waitSlot)
      (hlt : s.numInProgress < cfg.numConcurrentTransfers) :
      LoopStep cfg eff s [] { s with phase := LoopPhase.atLoopHead }
  | allOk (s : LoopState)
      (hph : s.phase = LoopPhase.waitAll)
      (hge : cfg.numTransfers ≤ s.completed) :
      LoopStep cfg eff s [] { s with phase := LoopPhase.done }

/-- Reachability of a loop state together with the trace of emitted events,
starting from the state of line 104. -/
inductive LoopReach (opts : CanaryOptions) (cfg : MeasurementConfig)
    (eff : CompletionEffect) : LoopState → List Event → Prop where
  | init : LoopReach opts cfg eff (initLoopState opts) []
  | step {s : LoopState} {tr : List Event} {es : List Event} {s' : LoopState}
      (h : LoopReach opts cfg eff s tr) (hs : LoopStep cfg eff s es s') :
      LoopReach opts cfg eff s' (tr ++ es)

/-- The coordinator branch (lines 55-74): optional DNS warm-up, then one
address write per transfer index, then one blocking finished-read per
transfer index, then return. `addrFor i` is
`transport->GetAddressForTransfer(i)`. -/
def coordinatorEvents (cfg : MeasurementConfig) (addrFor : Nat → String) : List Event :=
  (if cfg.flags.dontWarmDNSCache then []
   else [Event.warmDNSCache cfg.numConcurrentTransfers]) ++
  ((List.range cfg.numTransfers).map fun i =>
    Event.writeToChildProcess i (addressKey cfg) (addrFor i)) ++
  ((List.range cfg.numTransfers).map fun i =>
    Event.readFromChildProcess i (finishedKey cfg))

/-- The worker branch's preamble (lines 75-83): read the assigned address
from the coordinator, seed the transport's address cache with exactly that
string, spawn connection managers.  `rfp k` is the value
`ReadFromParentProcess(k)` returns. -/
def workerPreamble (cfg : MeasurementConfig) (rfp : String → String) : List Event :=
  [Event.readFromParentProcess (addressKey cfg) (rfp (addressKey cfg)),
   Event.seedAddressCache (rfp (addressKey cfg)),
   Event.spawnConnectionManagers]

/-- The standalone branch's preamble (lines 84-92): optional DNS warm-up,
spawn connection managers. -/
def standalonePreamble (cfg : MeasurementConfig) : List Event :=
  (if cfg.flags.dontWarmDNSCache then []
   else [Event.warmDNSCache cfg.numConcurrentTransfers]) ++
  [Event.spawnConnectionManagers]

/-- A complete execution of `PerformMeasurement`, by role.  The coordinator
returns at line 73 without running the loop.  Worker and standalone run
their preamble, then the issuance loop through to the final wait; the
worker additionally writes the finished token (lines 161-164) after the
wait-for-all passes. -/
inductive PerformMeasurementRun (opts : CanaryOptions) (cfg : MeasurementConfig)
    (addrFor : Nat → String) (rfp : String → String) (eff : CompletionEffect) :
    List Event → Prop where
  | coordinator (hp : opts.isParentProcess = true) :
      PerformMeasurementRun opts cfg addrFor rfp eff (coordinatorEvents cfg addrFor)
  | worker (hp : opts.isParentProcess = false) (hc : opts.isChildProcess = true)
      {s : LoopState} {ltr : List Event}
      (hr : LoopReach opts cfg eff s ltr) (hdone : s.phase = LoopPhase.done) :
      PerformMeasurementRun opts cfg addrFor rfp eff
        (workerPreamble cfg rfp ++ ltr ++
          [Event.writeToParentProcess (finishedKey cfg) "done"])
  | standalone (hp : opts.isParentProcess = false) (hc : opts.isChildProcess = false)
      {s : LoopState} {ltr : List Event}
      (hr : LoopReach opts cfg eff s ltr) (hdone : s.phase = LoopPhase.done) :
      PerformMeasurementRun opts cfg addrFor rfp eff (standalonePreamble cfg ++ ltr)

/-! ### Metrics pulse scheduler (constructor, `SchedulePulseMetrics`, `s_PulseMetricsTask`) -/

/-- The two `aws_task_status` values the task callback can receive. -/
inductive TaskStatus where
  | runReady
  | canceled
deriving Repr, DecidableEq

/-- Observable actions of the pulse-metrics machinery: a metric data point
handed to the publisher, or a task scheduling request on the event loop. -/
inductive PulseAction where
  | addDataPoint (name : String) (value : Nat)
  | scheduleTaskAt (time : Nat)
deriving Repr, DecidableEq

/-- Environment the pulse task reads: the two transports' endpoints, the
host resolver's per-endpoint resolved-address count, and the scheduling
loop's current clock value (nanoseconds). -/
structure PulseEnv where
  uploadEndpoint : String
  downloadEndpoint : String
  hostAddressCount : String → Nat
  now : Nat

/-- `MeasureTransferRate::SchedulePulseMetrics` (lines 412-418): read the
scheduling loop's clock and schedule the pulse task at
`now + AllocationMetricFrequencyNS`. -/
def SchedulePulseMetrics (env : PulseEnv) : List PulseAction :=
  [PulseAction.scheduleTaskAt (env.now + AllocationMetricFrequencyNS)]

/-- `MeasureTransferRate::s_PulseMetricsTask` (lines 420-549): return
immediately when the status is not `AWS_TASK_STATUS_RUN_READY`; otherwise
sample the resolved-address count for the upload and the download
transport's endpoint, publish each as a data point, and reschedule. -/
def s_PulseMetricsTask (status : TaskStatus) (env : PulseEnv) : List PulseAction :=
  if status ≠ TaskStatus.runReady then []
  else
    [PulseAction.addDataPoint "S3UploadAddressCount"
        (env.hostAddressCount env.uploadEndpoint),
     PulseAction.addDataPoint "S3DownloadAddressCount"
        (env.hostAddressCount env.downloadEndpoint)] ++
    SchedulePulseMetrics env

/-- The `MeasureTransferRate` constructor's scheduling behavior
(lines 24-38): schedule the first pulse only when the process is not a
child (worker) process. -/
def constructorPulseActions (isChildProcess : Bool) (env : PulseEnv) : List PulseAction :=
  if isChildProcess then [] else SchedulePulseMetrics env

/-! ### Event classifiers -/

def isInvoke : Event → Bool
  | Event.invokeTransfer _ _ => true
  | _ => false

def isCompleted : Event → Bool
  | Event.transferCompleted _ _ => true
  | _ => false

def isWarm : Event → Bool
  | Event.warmDNSCache _ => true
  | _ => false

def isWriteToChild : Event → Bool
  | Event.writeToChildProcess _ _ _ => true
  | _ => false

def isReadFromChild : Event → Bool
  | Event.readFromChildProcess _ _ => true
  | _ => false

def isReadFromParent : Event → Bool
  | Event.readFromParentProcess _ _ => true
  | _ => false

def isSeed : Event → Bool
  | Event.seedAddressCache _ => true
  | _ => false

def isSpawn : Event → Bool
  | Event.spawnConnectionManagers => true
  | _ => false

def isWriteToParent : Event → Bool
  | Event.writeToParentProcess _ _ => true
  | _ => false

/-- Events the issuance loop itself can emit. -/
def isLoopEvent : Event → Bool
  | Event.invokeTransfer _ _ => true
  | Event.logTransferError _ => true
  | Event.transferCompleted _ _ => true
  | _ => false

/-! ### The key-counter sequence -/

/-- Counter value at the top of iteration `i` (before the wrap check),
as a function of the child process index. -/
def counterAt (cfg : MeasurementConfig) (p : Nat) : Nat → Nat
  | 0 => INT64_MAX - p
  | i + 1 => nextCounter cfg (wrapCounter (counterAt cfg p i))

/-- The key the loop hands to the transfer function at iteration `i`. -/
def keyAt (cfg : MeasurementConfig) (p : Nat) (i : Nat) : String :=
  issueKey cfg (wrapCounter (counterAt cfg p i))

/-- The numeric suffix emitted at iteration `i` (meaningful when the
`NoFileSuffix` flag is clear). -/
def suffixAt (cfg : MeasurementConfig) (p : Nat) (i : Nat) : Nat :=
  wrapCounter (counterAt cfg p i)

/-! ### List helpers -/

theorem getD_append_left {α : Type} (l l' : List α) (d : α) (j : Nat)
    (hj : j < l.length) : (l ++ l').getD j d = l.getD j d := by
  induction l generalizing j with
  | nil => simp at hj
  | cons a t ih =>
    cases j with
    | zero => simp
    | succ k =>
      simp only [List.cons_append, List.getD_cons_succ]
      exact ih k (by simpa using hj)

theorem getD_set_self {α : Type} (l : List α) (j : Nat) (a d : α)
    (hj : j < l.length) : (l.set j a).getD j d = a := by
  induction l generalizing j with
  | nil => simp at hj
  | cons b t ih =>
    cases j with
    | zero => simp
    | succ k =>
      simp only [List.set_cons_succ, List.getD_cons_succ]
      exact ih k (by simpa using hj)

theorem getD_set_ne {α : Type} (l : List α) (i j : Nat) (a d : α)
    (h : i ≠ j) : (l.set i a).getD j d = l.getD j d := by
  induction l generalizing i j with
  | nil => simp
  | cons b t ih =>
    cases i with
    | zero =>
      cases j with
      | zero => exact absurd rfl h
      | succ k => simp
    | succ m =>
      cases j with
      | zero => simp
      | succ k =>
        simp only [List.set_cons_succ, List.getD_cons_succ]
        exact ih m k (fun he => h (by rw [he]))

/-! ### The main loop invariant -/

/-- Invariant of the issuance loop, tying the state and the emitted trace
together: counts agree, the counter follows `counterAt`, the invoke events
are exactly the per-index keys in order, completions are counted, and
non-success completions are logged. -/
structure LoopInv (opts : CanaryOptions) (cfg : MeasurementConfig)
    (s : LoopState) (tr : List Event) : Prop where
  records_len : s.records.length = s.idx
  idx_le : s.idx ≤ cfg.numTransfers
  pending_lt : ∀ j ∈ s.pending, j < s.idx
  pending_nodup : s.pending.Nodup
  inflight_eq : s.numInProgress = s.pending.length
  count_eq : s.pending.length + s.completed = s.idx
  counter_eq : s.counter = counterAt cfg opts.childProcessIndex s.idx
  invokes_eq : tr.filter isInvoke =
    (List.range s.idx).map
      (fun i => Event.invokeTransfer i (keyAt cfg opts.childProcessIndex i))
  completes_len : (tr.filter isCompleted).length = s.completed
  logs : ∀ j c, Event.transferCompleted j c ∈ tr → c ≠ AWS_ERROR_SUCCESS →
    Event.logTransferError c ∈ tr
  phase_idx : s.phase = LoopPhase.waitAll ∨ s.phase = LoopPhase.done →
    s.idx = cfg.numTransfers
  done_completed : s.phase = LoopPhase.done → cfg.numTransfers ≤ s.completed
  loop_events : ∀ e ∈ tr, isLoopEvent e = true

theorem loopInv_init (opts : CanaryOptions) (cfg : MeasurementConfig) :
    LoopInv opts cfg (initLoopState opts) [] := by
  refine ⟨?_, ?_, ?_, ?_, ?_, ?_, ?_, ?_, ?_, ?_, ?_, ?_, ?_⟩ <;>
    simp [initLoopState, counterAt, initCounter]

theorem loopInv_step {opts : CanaryOptions} {cfg : MeasurementConfig}
    {eff : CompletionEffect} {s : LoopState} {tr es : List Event} {s' : LoopState}
    (hinv : LoopInv opts cfg s tr) (hs : LoopStep cfg eff s es s') :
    LoopInv opts cfg s' (tr ++ es) := by
  cases hs with
  | issue hph hlt =>
    refine ⟨?_, ?_, ?_, ?_, ?_, ?_, ?_, ?_, ?_, ?_, ?_, ?_, ?_⟩
    · simp [hinv.records_len]
    · dsimp only
      omega
    · dsimp only
      intro j hj
      simp only [List.mem_append, List.mem_singleton] at hj
      rcases hj with hj | hj
      · exact Nat.lt_succ_of_lt (hinv.pending_lt j hj)
      · omega
    · dsimp only
      simp only [List.nodup_append]
      refine ⟨hinv.pending_nodup, by simp, ?_⟩
      intro j hj
      have := hinv.pending_lt j hj
      simp only [List.mem_singleton]
      omega
    · dsimp only
      simp [hinv.inflight_eq]
    · dsimp only
      have := hinv.count_eq
      simp only [List.length_append, List.length_cons, List.length_nil]
      omega
    · dsimp only
      simp [counterAt, hinv.counter_eq]
    · dsimp only
      simp only [List.filter_append]
      rw [hinv.invokes_eq]
      have hkey : issueKey cfg (wrapCounter s.counter) =
          keyAt cfg opts.childProcessIndex s.idx := by
        rw [keyAt, hinv.counter_eq]
      simp [List.range_succ, isInvoke, hkey]
    · dsimp only
      simp [List.filter_append, isCompleted, hinv.completes_len]
    · intro j c hmem hc
      simp only [List.mem_append, List.mem_singleton] at hmem
      rcases hmem with hmem | hmem
      · exact List.mem_append_left _ (hinv.logs j c hmem hc)
      · simp at hmem
    · intro h
      rcases h with h | h <;> simp at h
    · intro h
      simp at h
    · intro e he
      simp only [List.mem_append, List.mem_singleton] at he
      rcases he with he | he
      · exact hinv.loop_events e he
      · subst he; rfl
  | exitLoop hph hge =>
    refine ⟨hinv.records_len, hinv.idx_le, hinv.pending_lt, hinv.pending_nodup,
      hinv.inflight_eq, hinv.count_eq, hinv.counter_eq, ?_, ?_, ?_, ?_, ?_, ?_⟩
    · simpa using hinv.invokes_eq
    · simpa using hinv.completes_len
    · intro j c hmem hc
      simp only [List.append_nil] at hmem ⊢
      exact hinv.logs j c hmem hc
    · intro _
      dsimp only
      have := hinv.idx_le
      omega
    · intro h
      simp at h
    · intro e he
      simp only [List.append_nil] at he
      exact hinv.loop_events e he
  | complete j c hj =>
    have hlen : 0 < s.pending.length := List.length_pos.mpr (List.ne_nil_of_mem hj)
    have hjidx : j < s.idx := hinv.pending_lt j hj
    refine ⟨?_, hinv.idx_le, ?_, ?_, ?_, ?_, hinv.counter_eq, ?_, ?_, ?_, ?_, ?_, ?_⟩
    · simp [hinv.records_len]
    · dsimp only
      intro j' hj'
      exact hinv.pending_lt j' (List.mem_of_mem_erase hj')
    · exact hinv.pending_nodup.erase j
    · dsimp only
      rw [List.length_erase_of_mem hj, hinv.inflight_eq]
    · dsimp only
      rw [List.length_erase_of_mem hj]
      have := hinv.count_eq
      omega
    · dsimp only
      simp only [List.filter_append]
      rw [hinv.invokes_eq]
      have h1 : List.filter isInvoke
          (if c ≠ AWS_ERROR_SUCCESS then [Event.logTransferError c] else []) = [] := by
        split <;> simp [isInvoke]
      simp [h1, isInvoke]
    · dsimp only
      simp only [List.filter_append, List.length_append]
      rw [hinv.completes_len]
      have h1 : (List.filter isCompleted
          (if c ≠ AWS_ERROR_SUCCESS then [Event.logTransferError c] else [])).length = 0 := by
        split <;> simp [isCompleted]
      simp [h1, isCompleted]
    · intro j' c' hmem hc'
      simp only [List.mem_append, List.mem_singleton] at hmem
      rcases hmem with hmem | hmem | hmem
      · exact List.mem_append_left _ (hinv.logs j' c' hmem hc')
      · split at hmem <;> simp at hmem
      · have hcc : c' = c := by
          injection hmem with h1 h2
        subst hcc
        refine List.mem_append_right _ (List.mem_append_left _ ?_)
        simp [hc']
    · intro h
      exact hinv.phase_idx h
    · intro h
      have := hinv.done_completed h
      dsimp only
      omega
    · intro e he
      simp only [List.mem_append, List.mem_singleton] at he
      rcases he with he | he | he
      · exact hinv.loop_events e he
      · split at he <;> simp at he
        subst he; rfl
      · subst he; rfl
  | slotOk hph hlt =>
    refine ⟨hinv.records_len, hinv.idx_le, hinv.pending_lt, hinv.pending_nodup,
      hinv.inflight_eq, hinv.count_eq, hinv.counter_eq, ?_, ?_, ?_, ?_, ?_, ?_⟩
    · simpa using hinv.invokes_eq
    · simpa using hinv.completes_len
    · intro j c hmem hc
      simp only [List.append_nil] at hmem ⊢
      exact hinv.logs j c hmem hc
    · intro h
      rcases h with h | h <;> simp at h
    · intro h
      simp at h
    · intro e he
      simp only [List.append_nil] at he
      exact hinv.loop_events e he
  | allOk hph hge =>
    refine ⟨hinv.records_len, hinv.idx_le, hinv.pending_lt, hinv.pending_nodup,
      hinv.inflight_eq, hinv.count_eq, hinv.counter_eq, ?_, ?_, ?_, ?_, ?_, ?_⟩
    · simpa using hinv.invokes_eq
    · simpa using hinv.completes_len
    · intro j c hmem hc
      simp only [List.append_nil] at hmem ⊢
      exact hinv.logs j c hmem hc
    · intro _
      exact hinv.phase_idx (Or.inl hph)
    · intro _
      exact hge
    · intro e he
      simp only [List.append_nil] at he
      exact hinv.loop_events e he

theorem loopInv_of_reach {opts : CanaryOptions} {cfg : MeasurementConfig}
    {eff : CompletionEffect} {s : LoopState} {tr : List Event}
    (h : LoopReach opts cfg eff s tr) : LoopInv opts cfg s tr := by
  induction h with
  | init => exact loopInv_init opts cfg
  | step _ hs ih => exact loopInv_step ih hs

/-! ### The concurrency-cap invariant -/

/-- The back-pressure property: the in-flight counter never exceeds the
cap, and whenever the issuing thread stands at the loop head (about to
issue) the counter is strictly below the cap. -/
def CapInv (cfg : MeasurementConfig) (s : LoopState) : Prop :=
  s.numInProgress ≤ cfg.numConcurrentTransfers ∧
  (s.phase = LoopPhase.atLoopHead → s.numInProgress < cfg.numConcurrentTransfers)

theorem capInv_of_reach {opts : CanaryOptions} {cfg : MeasurementConfig}
    {eff : CompletionEffect} {s : LoopState} {tr : List Event}
    (hcap : 1 ≤ cfg.numConcurrentTransfers)
    (h : LoopReach opts cfg eff s tr) : CapInv cfg s := by
  induction h with
  | init =>
    constructor
    · simp [initLoopState]
    · intro _
      simp only [initLoopState]
      omega
  | step hr hs ih =>
    obtain ⟨h1, h2⟩ := ih
    cases hs with
    | issue hph hlt =>
      have h3 := h2 hph
      constructor
      · dsimp only
        omega
      · intro hp
        dsimp only at hp
        simp at hp
    | exitLoop hph hge =>
      constructor
      · exact h1
      · intro hp
        dsimp only at hp
        simp at hp
    | complete j c hj =>
      constructor
      · dsimp only
        omega
      · intro hp
        dsimp only at hp
        have := h2 hp
        dsimp only
        omega
    | slotOk hph hlt =>
      exact ⟨h1, fun _ => hlt⟩
    | allOk hph hge =>
      constructor
      · exact h1
      · intro hp
        dsimp only at hp
        simp at hp

/-! ### The records invariant -/

/-- Every transfer that was issued and whose completion notification has
run has a record whose success flag was written. -/
def RecordsSet (s : LoopState) : Prop :=
  ∀ j, j < s.idx → j ∉ s.pending → (s.records.getD j none).isSome = true

theorem recordsSet_of_reach {opts : CanaryOptions} {cfg : MeasurementConfig}
    {eff : CompletionEffect} {s : LoopState} {tr : List Event}
    (heff : ∀ f c, (eff f c).isSome = true)
    (h : LoopReach opts cfg eff s tr) : RecordsSet s := by
  induction h with
  | init =>
    intro j hj _
    simp [initLoopState] at hj
  | step hr hs ih =>
    rename_i sc trc esc sc'
    have hinv := loopInv_of_reach hr
    cases hs with
    | issue hph hlt =>
      intro j hj hnp
      dsimp only at hj hnp ⊢
      simp only [List.mem_append, List.mem_singleton] at hnp
      push_neg at hnp
      obtain ⟨hnp1, hnp2⟩ := hnp
      have hjlt : j < sc.idx := by omega
      rw [getD_append_left _ _ _ _ (by rw [hinv.records_len]; exact hjlt)]
      exact ih j hjlt hnp1
    | exitLoop hph hge => exact ih
    | complete j c hj =>
      intro j' hj' hnp
      dsimp only at hj' hnp ⊢
      by_cases hjj : j' = j
      · subst hjj
        rw [getD_set_self _ _ _ _ (by rw [hinv.records_len]; exact hinv.pending_lt j' hj)]
        exact heff _ _
      · rw [getD_set_ne _ _ _ _ _ (fun he => hjj he.symm)]
        refine ih j' hj' ?_
        intro hmem
        exact hnp ((List.mem_erase_of_ne hjj).mpr hmem)
    | slotOk hph hlt => exact ih
    | allOk hph hge => exact ih

/-! ### Trace purity of the loop -/

theorem loop_trace_filter_nil {opts : CanaryOptions} {cfg : MeasurementConfig}
    {eff : CompletionEffect} {s : LoopState} {tr : List Event}
    (h : LoopReach opts cfg eff s tr)
    (p : Event → Bool) (hp : ∀ e, isLoopEvent e = true → p e = false) :
    tr.filter p = [] := by
  have hinv := loopInv_of_reach h
  rw [List.filter_eq_nil_iff]
  intro e he
  simp [hp e (hinv.loop_events e he)]

theorem loop_trace_no_warm {opts : CanaryOptions} {cfg : MeasurementConfig}
    {eff : CompletionEffect} {s : LoopState} {tr : List Event}
    (h : LoopReach opts cfg eff s tr) (n : Nat) :
    Event.warmDNSCache n ∉ tr := by
  have hinv := loopInv_of_reach h
  intro hmem
  have := hinv.loop_events _ hmem
  simp [isLoopEvent] at this

/-! ### The emitted key-suffix sequence -/

theorem wrapCounter_pos (c : Nat) : 0 < wrapCounter c := by
  rw [wrapCounter]
  split
  · norm_num [INT64_MAX]
  · omega

theorem suffixAt_pos (cfg : MeasurementConfig) (p i : Nat) :
    0 < suffixAt cfg p i := wrapCounter_pos _

theorem suffixAt_zero (cfg : MeasurementConfig) (p : Nat) (hp : p < INT64_MAX) :
    suffixAt cfg p 0 = INT64_MAX - p := by
  have : INT64_MAX - p ≠ 0 := Nat.sub_ne_zero_of_lt hp
  simp [suffixAt, counterAt, wrapCounter, this]

theorem suffixAt_succ (cfg : MeasurementConfig) (p i : Nat)
    (hsuf : cfg.flags.noFileSuffix = false) :
    suffixAt cfg p (i + 1) = wrapCounter (suffixAt cfg p i - 1) := by
  simp [suffixAt, counterAt, nextCounter, hsuf]

theorem suffixAt_succ_of_ne_one (cfg : MeasurementConfig) (p i : Nat)
    (hsuf : cfg.flags.noFileSuffix = false) (h1 : suffixAt cfg p i ≠ 1) :
    suffixAt cfg p (i + 1) = suffixAt cfg p i - 1 := by
  rw [suffixAt_succ cfg p i hsuf]
  have hpos := suffixAt_pos cfg p i
  rw [wrapCounter]
  split
  · omega
  · rfl

theorem suffixAt_succ_of_eq_one (cfg : MeasurementConfig) (p i : Nat)
    (hsuf : cfg.flags.noFileSuffix = false) (h1 : suffixAt cfg p i = 1) :
    suffixAt cfg p (i + 1) = INT64_MAX := by
  rw [suffixAt_succ cfg p i hsuf, h1]
  rfl

/-! ### Small helpers about filtered traces -/

theorem filter_map_range_all {n : Nat} (f : Nat → Event) (p : Event → Bool)
    (hall : ∀ i, p (f i) = true) :
    ((List.range n).map f).filter p = (List.range n).map f := by
  apply List.filter_eq_self.mpr
  intro a ha
  obtain ⟨i, _, rfl⟩ := List.mem_map.mp ha
  exact hall i

theorem filter_map_range_none {n : Nat} (f : Nat → Event) (p : Event → Bool)
    (hnone : ∀ i, p (f i) = false) :
    ((List.range n).map f).filter p = [] := by
  apply List.filter_eq_nil_iff.mpr
  intro a ha
  obtain ⟨i, _, rfl⟩ := List.mem_map.mp ha
  simp [hnone i]

theorem getLast_append_singleton {α : Type} (l : List α) (a : α) :
    (l ++ [a]).getLast? = some a :=
  List.getLast?_concat l

theorem loopEvent_not_rfp (e : Event) (he : isLoopEvent e = true) :
    isReadFromParent e = false := by
  cases e <;> first | rfl | simp [isLoopEvent] at he

theorem loopEvent_not_seed (e : Event) (he : isLoopEvent e = true) :
    isSeed e = false := by
  cases e <;> first | rfl | simp [isLoopEvent] at he

theorem loopEvent_not_spawn (e : Event) (he : isLoopEvent e = true) :
    isSpawn e = false := by
  cases e <;> first | rfl | simp [isLoopEvent] at he

theorem loopEvent_not_wtp (e : Event) (he : isLoopEvent e = true) :
    isWriteToParent e = false := by
  cases e <;> first | rfl | simp [isLoopEvent] at he

/-! ### Concrete fixtures -/

/-- `MeasureTransferRate::SinglePartObjectSize` (line 16). -/
def SinglePartObjectSize : Nat := 5 * 1024 * 1024 * 1024

def optsStandalone : CanaryOptions :=
  { isParentProcess := false, isChildProcess := false, childProcessIndex := 0 }

def optsWorker : CanaryOptions :=
  { isParentProcess := false, isChildProcess := true, childProcessIndex := 0 }

def optsCoordinator : CanaryOptions :=
  { isParentProcess := true, isChildProcess := false, childProcessIndex := 0 }

/-- A one-transfer configuration matching `MeasureHttpTransfer`'s call
(lines 196-203): both flags set, concurrency cap 1. -/
def cfgHttpDown : MeasurementConfig :=
  { filenamePrefix := "obj", keyPrefix := "httpTransferDown-", numTransfers := 1,
    numConcurrentTransfers := 1, objectSize := SinglePartObjectSize,
    flags := { dontWarmDNSCache := true, noFileSuffix := true } }

/-- A one-transfer configuration matching the single-part download call
(lines 366-373). -/
def cfgDownOne : MeasurementConfig :=
  { filenamePrefix := "obj", keyPrefix := "singlePartObjectDown-", numTransfers := 1,
    numConcurrentTransfers := 1, objectSize := SinglePartObjectSize,
    flags := { dontWarmDNSCache := false, noFileSuffix := true } }

/-- A zero-transfer configuration with all flags clear. -/
def cfgZero : MeasurementConfig :=
  { filenamePrefix := "file", keyPrefix := "kv-", numTransfers := 0,
    numConcurrentTransfers := 2, objectSize := 1,
    flags := { dontWarmDNSCache := false, noFileSuffix := false } }

/-- A two-transfer coordinator configuration. -/
def cfgCoordTwo : MeasurementConfig :=
  { filenamePrefix := "file", keyPrefix := "kv-", numTransfers := 2,
    numConcurrentTransfers := 3, objectSize := 1,
    flags := { dontWarmDNSCache := false, noFileSuffix := false } }

def addrForW : Nat → String := fun i => "10.0.0." ++ toString i

def rfpW : String → String := fun _ => "10.0.0.5:443"

/-- Final state of a one-transfer HTTP-download run where the stream
completes successfully with status 200: the record's flag is still `none`. -/
def httpDoneState : LoopState :=
  { idx := 1, counter := INT64_MAX, numInProgress := 0, completed := 1,
    pending := [], records := [none], phase := LoopPhase.done }

def httpDoneTrace : List Event :=
  [Event.invokeTransfer 0 "obj", Event.transferCompleted 0 0]

theorem httpRun_reach :
    LoopReach optsStandalone cfgHttpDown httpTransferEffect httpDoneState httpDoneTrace := by
  have h0 := @LoopReach.init optsStandalone cfgHttpDown httpTransferEffect
  have h1 := LoopReach.step h0 (LoopStep.issue _ rfl (by decide))
  have h2 := LoopReach.step h1
    (LoopStep.complete _ 0 (httpStreamCompleteCode AWS_ERROR_SUCCESS 200) (by decide))
  have h3 := LoopReach.step h2 (LoopStep.slotOk _ rfl (by decide))
  have h4 := LoopReach.step h3 (LoopStep.exitLoop _ rfl (by decide))
  have h5 := LoopReach.step h4 (LoopStep.allOk _ rfl (by decide))
  exact h5

/-- Final state of a one-transfer single-part download run that succeeds:
the record's flag was set to `some true`. -/
def spDoneState : LoopState :=
  { idx := 1, counter := INT64_MAX, numInProgress := 0, completed := 1,
    pending := [], records := [some true], phase := LoopPhase.done }

def spDoneTrace : List Event :=
  [Event.invokeTransfer 0 "obj", Event.transferCompleted 0 0]

theorem spRun_reach :
    LoopReach optsStandalone cfgDownOne singlePartTransferEffect spDoneState spDoneTrace := by
  have h0 := @LoopReach.init optsStandalone cfgDownOne singlePartTransferEffect
  have h1 := LoopReach.step h0 (LoopStep.issue _ rfl (by decide))
  have h2 := LoopReach.step h1 (LoopStep.complete _ 0 AWS_ERROR_SUCCESS (by decide))
  have h3 := LoopReach.step h2 (LoopStep.slotOk _ rfl (by decide))
  have h4 := LoopReach.step h3 (LoopStep.exitLoop _ rfl (by decide))
  have h5 := LoopReach.step h4 (LoopStep.allOk _ rfl (by decide))
  exact h5

/-- Final state of a one-transfer single-part run whose transfer reports
error code 7: the loop still completes, the record's flag is `some false`. -/
def errDoneState : LoopState :=
  { idx := 1, counter := INT64_MAX, numInProgress := 0, completed := 1,
    pending := [], records := [some false], phase := LoopPhase.done }

def errDoneTrace : List Event :=
  [Event.invokeTransfer 0 "obj", Event.logTransferError 7, Event.transferCompleted 0 7]

theorem errRun_reach :
    LoopReach optsStandalone cfgDownOne singlePartTransferEffect errDoneState errDoneTrace := by
  have h0 := @LoopReach.init optsStandalone cfgDownOne singlePartTransferEffect
  have h1 := LoopReach.step h0 (LoopStep.issue _ rfl (by decide))
  have h2 := LoopReach.step h1 (LoopStep.complete _ 0 7 (by decide))
  have h3 := LoopReach.step h2 (LoopStep.slotOk _ rfl (by decide))
  have h4 := LoopReach.step h3 (LoopStep.exitLoop _ rfl (by decide))
  have h5 := LoopReach.step h4 (LoopStep.allOk _ rfl (by decide))
  exact h5

/-- A completed zero-transfer worker loop: both waits pass immediately. -/
def zeroDoneState : LoopState := { initLoopState optsWorker with phase := LoopPhase.done }

theorem zeroRun_reach :
    LoopReach optsWorker cfgZero singlePartTransferEffect zeroDoneState [] := by
  have h0 := @LoopReach.init optsWorker cfgZero singlePartTransferEffect
  have h1 := LoopReach.step h0 (LoopStep.exitLoop _ rfl (by decide))
  have h2 := LoopReach.step h1 (LoopStep.allOk _ rfl (by decide))
  exact h2

/-! ### Claim theorems -/

/-- C1: in a non-coordinator execution of `PerformMeasurement` with
concurrency cap at least 1, the in-flight counter (incremented once before
each transfer is issued, decremented once by each completion notification)
never exceeds the cap; moreover the issuing thread only stands at the loop
head (about to issue) while the in-flight count is strictly below the cap,
which is exactly the back-pressure wait of lines 151-154. -/
theorem c1_inflight_never_exceeds_cap
    (opts : CanaryOptions) (cfg : MeasurementConfig) (eff : CompletionEffect)
    (hcap : 1 ≤ cfg.numConcurrentTransfers)
    (s : LoopState) (tr : List Event) (hr : LoopReach opts cfg eff s tr) :
    s.numInProgress ≤ cfg.numConcurrentTransfers ∧
    (s.phase = LoopPhase.atLoopHead →
      s.numInProgress < cfg.numConcurrentTransfers) :=
  capInv_of_reach hcap hr

/-- C1 witness: the bound instantiated on a concrete reachable final state
of a one-transfer single-part download run with cap 1. -/
theorem c1_witness :
    spDoneState.numInProgress ≤ cfgDownOne.numConcurrentTransfers ∧
    (spDoneState.phase = LoopPhase.atLoopHead →
      spDoneState.numInProgress < cfgDownOne.numConcurrentTransfers) :=
  c1_inflight_never_exceeds_cap optsStandalone cfgDownOne singlePartTransferEffect
    (by decide) spDoneState spDoneTrace spRun_reach

/-- C2 (amended): in a non-coordinator run whose transfer function is one
of the single-part object ones (their completion callbacks call
`SetTransferSuccess` before notifying), the loop finishes only with
completed count equal to `numTransfers`, and at that point every Transfer
Record's success flag is non-pending.  The HTTP transfer function of
`MeasureHttpTransfer` never sets the flag (see the counterexample), so the
record clause holds only for the single-part transfer functions. -/
theorem c2_completed_and_records_set
    (opts : CanaryOptions) (cfg : MeasurementConfig)
    (s : LoopState) (tr : List Event)
    (hr : LoopReach opts cfg singlePartTransferEffect s tr)
    (hdone : s.phase = LoopPhase.done) :
    s.completed = cfg.numTransfers ∧
    s.records.length = cfg.numTransfers ∧
    ∀ j, j < cfg.numTransfers → (s.records.getD j none).isSome = true := by
  have hinv := loopInv_of_reach hr
  have hidx := hinv.phase_idx (Or.inr hdone)
  have hge := hinv.done_completed hdone
  have hcnt := hinv.count_eq
  have hpend : s.pending = [] := by
    have hl : s.pending.length = 0 := by omega
    exact List.length_eq_zero.mp hl
  have hrs := @recordsSet_of_reach opts cfg singlePartTransferEffect s tr
    (fun _ _ => rfl) hr
  refine ⟨by omega, by rw [hinv.records_len, hidx], ?_⟩
  intro j hj
  exact hrs j (by omega) (by simp [hpend])

/-- C2 counterexample: a complete run of the issuance loop driven by
`MeasureHttpTransfer`'s transfer function, one transfer, which succeeds
(stream error `AWS_ERROR_SUCCESS`, response status 200): the loop finishes
with completed count 1, yet the Transfer Record created for the run still
has a pending (never set) success flag — refuting the claim that after the
run every Transfer Record has a non-pending success flag. -/
theorem c2_counterexample :
    LoopReach optsStandalone cfgHttpDown httpTransferEffect httpDoneState httpDoneTrace ∧
    httpDoneState.phase = LoopPhase.done ∧
    httpDoneState.completed = cfgHttpDown.numTransfers ∧
    httpDoneState.records.getD 0 none = none :=
  ⟨httpRun_reach, rfl, rfl, rfl⟩

/-- C2 witness: the amended claim instantiated on the concrete successful
single-part download run. -/
theorem c2_witness :
    spDoneState.completed = cfgDownOne.numTransfers ∧
    spDoneState.records.length = cfgDownOne.numTransfers ∧
    ∀ j, j < cfgDownOne.numTransfers → (spDoneState.records.getD j none).isSome = true :=
  c2_completed_and_records_set optsStandalone cfgDownOne spDoneState spDoneTrace
    spRun_reach rfl

/-- C3: with the `NoFileSuffix` flag clear, the numeric key suffixes the
loop hands to the transfer function are, in index order, the sequence
`suffixAt`: it starts at `INT64_MAX` minus the process index, each
subsequent value is one less, after the value 1 (i.e. once the stored
counter reaches zero) the next emitted value is `INT64_MAX`, and no
emitted value is ever zero (and, the values being naturals, never
negative). -/
theorem c3_suffix_sequence
    (opts : CanaryOptions) (cfg : MeasurementConfig) (eff : CompletionEffect)
    (hsuf : cfg.flags.noFileSuffix = false)
    (hp : opts.childProcessIndex < INT64_MAX)
    (s : LoopState) (tr : List Event) (hr : LoopReach opts cfg eff s tr) :
    tr.filter isInvoke = (List.range s.idx).map
      (fun i => Event.invokeTransfer i
        (cfg.filenamePrefix ++ toString (suffixAt cfg opts.childProcessIndex i))) ∧
    suffixAt cfg opts.childProcessIndex 0 = INT64_MAX - opts.childProcessIndex ∧
    (∀ i, suffixAt cfg opts.childProcessIndex i ≠ 1 →
      suffixAt cfg opts.childProcessIndex (i + 1) =
        suffixAt cfg opts.childProcessIndex i - 1) ∧
    (∀ i, suffixAt cfg opts.childProcessIndex i = 1 →
      suffixAt cfg opts.childProcessIndex (i + 1) = INT64_MAX) ∧
    (∀ i, 0 < suffixAt cfg opts.childProcessIndex i) := by
  have hinv := loopInv_of_reach hr
  refine ⟨?_, suffixAt_zero cfg _ hp,
    fun i => suffixAt_succ_of_ne_one cfg _ i hsuf,
    fun i => suffixAt_succ_of_eq_one cfg _ i hsuf,
    fun i => suffixAt_pos cfg _ i⟩
  rw [hinv.invokes_eq]
  simp [keyAt, issueKey, suffixAt, hsuf]

/-- C3 witness: the suffix-sequence claim instantiated at process index 0
with a suffix-emitting configuration, on the (trivially reachable) initial
loop state. -/
theorem c3_witness :
    List.filter isInvoke [] = (List.range (initLoopState optsWorker).idx).map
      (fun i => Event.invokeTransfer i
        (cfgZero.filenamePrefix ++ toString (suffixAt cfgZero optsWorker.childProcessIndex i))) ∧
    suffixAt cfgZero optsWorker.childProcessIndex 0 =
      INT64_MAX - optsWorker.childProcessIndex ∧
    (∀ i, suffixAt cfgZero optsWorker.childProcessIndex i ≠ 1 →
      suffixAt cfgZero optsWorker.childProcessIndex (i + 1) =
        suffixAt cfgZero optsWorker.childProcessIndex i - 1) ∧
    (∀ i, suffixAt cfgZero optsWorker.childProcessIndex i = 1 →
      suffixAt cfgZero optsWorker.childProcessIndex (i + 1) = INT64_MAX) ∧
    (∀ i, 0 < suffixAt cfgZero optsWorker.childProcessIndex i) :=
  c3_suffix_sequence optsWorker cfgZero singlePartTransferEffect rfl (by decide)
    (initLoopState optsWorker) [] LoopReach.init

/-- C4: a coordinator-role execution of `PerformMeasurement` produces
exactly the coordinator trace: it warms the DNS cache iff the
`DontWarmDNSCache` flag is clear, performs exactly `numTransfers` address
writes (write `i` carries the transport's resolved endpoint for index `i`
to process `i` under the address key), then exactly `numTransfers`
finished-key reads (one per index), and returns without ever invoking the
transfer function (so the issuance loop never runs). -/
theorem c4_coordinator_protocol
    (opts : CanaryOptions) (cfg : MeasurementConfig)
    (addrFor : Nat → String) (rfp : String → String) (eff : CompletionEffect)
    (hp : opts.isParentProcess = true)
    (tr : List Event) (hrun : PerformMeasurementRun opts cfg addrFor rfp eff tr) :
    tr = coordinatorEvents cfg addrFor ∧
    (Event.warmDNSCache cfg.numConcurrentTransfers ∈ tr ↔
      cfg.flags.dontWarmDNSCache = false) ∧
    tr.filter isWriteToChild = (List.range cfg.numTransfers).map
      (fun i => Event.writeToChildProcess i (addressKey cfg) (addrFor i)) ∧
    tr.filter isReadFromChild = (List.range cfg.numTransfers).map
      (fun i => Event.readFromChildProcess i (finishedKey cfg)) ∧
    tr.filter isInvoke = [] := by
  cases hrun with
  | worker hpf hcf hr hdone => rw [hp] at hpf; exact Bool.noConfusion hpf
  | standalone hpf hcf hr hdone => rw [hp] at hpf; exact Bool.noConfusion hpf
  | coordinator _ =>
    refine ⟨rfl, ?_, ?_, ?_, ?_⟩
    · cases hflag : cfg.flags.dontWarmDNSCache <;>
        simp [coordinatorEvents, hflag]
    · rw [coordinatorEvents]
      simp only [List.filter_append]
      rw [filter_map_range_all
          (fun i => Event.writeToChildProcess i (addressKey cfg) (addrFor i))
          isWriteToChild (fun i => rfl),
        filter_map_range_none
          (fun i => Event.readFromChildProcess i (finishedKey cfg))
          isWriteToChild (fun i => rfl)]
      split <;> simp [isWriteToChild]
    · rw [coordinatorEvents]
      simp only [List.filter_append]
      rw [filter_map_range_none
          (fun i => Event.writeToChildProcess i (addressKey cfg) (addrFor i))
          isReadFromChild (fun i => rfl),
        filter_map_range_all
          (fun i => Event.readFromChildProcess i (finishedKey cfg))
          isReadFromChild (fun i => rfl)]
      split <;> simp [isReadFromChild]
    · rw [coordinatorEvents]
      simp only [List.filter_append]
      rw [filter_map_range_none
          (fun i => Event.writeToChildProcess i (addressKey cfg) (addrFor i))
          isInvoke (fun i => rfl),
        filter_map_range_none
          (fun i => Event.readFromChildProcess i (finishedKey cfg))
          isInvoke (fun i => rfl)]
      split <;> simp [isInvoke]

/-- C4 witness: the coordinator protocol instantiated on a concrete
two-transfer coordinator run. -/
theorem c4_witness :
    coordinatorEvents cfgCoordTwo addrForW = coordinatorEvents cfgCoordTwo addrForW ∧
    (Event.warmDNSCache cfgCoordTwo.numConcurrentTransfers ∈
        coordinatorEvents cfgCoordTwo addrForW ↔
      cfgCoordTwo.flags.dontWarmDNSCache = false) ∧
    (coordinatorEvents cfgCoordTwo addrForW).filter isWriteToChild =
      (List.range cfgCoordTwo.numTransfers).map
        (fun i => Event.writeToChildProcess i (addressKey cfgCoordTwo) (addrForW i)) ∧
    (coordinatorEvents cfgCoordTwo addrForW).filter isReadFromChild =
      (List.range cfgCoordTwo.numTransfers).map
        (fun i => Event.readFromChildProcess i (finishedKey cfgCoordTwo)) ∧
    (coordinatorEvents cfgCoordTwo addrForW).filter isInvoke = [] :=
  c4_coordinator_protocol optsCoordinator cfgCoordTwo addrForW rfpW
    singlePartTransferEffect rfl (coordinatorEvents cfgCoordTwo addrForW)
    (PerformMeasurementRun.coordinator rfl)

/-- C5: a worker-role execution performs exactly one address read from the
coordinator, passes exactly the string it read (unmodified) to the
transport's `SeedAddressCache`, spawns its connection managers, runs the
issuance loop to a `done` state, and only then performs exactly one
finished-token write to the coordinator — the trace's last event. -/
theorem c5_worker_protocol
    (opts : CanaryOptions) (cfg : MeasurementConfig)
    (addrFor : Nat → String) (rfp : String → String) (eff : CompletionEffect)
    (hp : opts.isParentProcess = false) (hc : opts.isChildProcess = true)
    (tr : List Event) (hrun : PerformMeasurementRun opts cfg addrFor rfp eff tr) :
    tr.filter isReadFromParent =
      [Event.readFromParentProcess (addressKey cfg) (rfp (addressKey cfg))] ∧
    tr.filter isSeed = [Event.seedAddressCache (rfp (addressKey cfg))] ∧
    tr.filter isSpawn = [Event.spawnConnectionManagers] ∧
    tr.filter isWriteToParent =
      [Event.writeToParentProcess (finishedKey cfg) "done"] ∧
    tr.getLast? = some (Event.writeToParentProcess (finishedKey cfg) "done") ∧
    ∃ s ltr, LoopReach opts cfg eff s ltr ∧ s.phase = LoopPhase.done ∧
      tr = workerPreamble cfg rfp ++ ltr ++
        [Event.writeToParentProcess (finishedKey cfg) "done"] := by
  cases hrun with
  | coordinator hpf => rw [hp] at hpf; exact Bool.noConfusion hpf
  | standalone hpf hcf hr hdone => rw [hc] at hcf; exact Bool.noConfusion hcf
  | worker hpf hcf hr hdone =>
    have h1 := loop_trace_filter_nil hr isReadFromParent loopEvent_not_rfp
    have h2 := loop_trace_filter_nil hr isSeed loopEvent_not_seed
    have h3 := loop_trace_filter_nil hr isSpawn loopEvent_not_spawn
    have h4 := loop_trace_filter_nil hr isWriteToParent loopEvent_not_wtp
    refine ⟨?_, ?_, ?_, ?_, ?_, ⟨_, _, hr, hdone, rfl⟩⟩
    · simp [workerPreamble, List.filter_append, h1, isReadFromParent]
    · simp [workerPreamble, List.filter_append, h2, isSeed]
    · simp [workerPreamble, List.filter_append, h3, isSpawn]
    · simp [workerPreamble, List.filter_append, h4, isWriteToParent]
    · exact getLast_append_singleton _ _

/-- C5 witness: the worker protocol instantiated on a concrete
zero-transfer worker run reading address "10.0.0.5:443". -/
theorem c5_witness :
    (workerPreamble cfgZero rfpW ++ [] ++
        [Event.writeToParentProcess (finishedKey cfgZero) "done"]).filter isReadFromParent =
      [Event.readFromParentProcess (addressKey cfgZero) (rfpW (addressKey cfgZero))] ∧
    (workerPreamble cfgZero rfpW ++ [] ++
        [Event.writeToParentProcess (finishedKey cfgZero) "done"]).filter isSeed =
      [Event.seedAddressCache (rfpW (addressKey cfgZero))] ∧
    (workerPreamble cfgZero rfpW ++ [] ++
        [Event.writeToParentProcess (finishedKey cfgZero) "done"]).filter isSpawn =
      [Event.spawnConnectionManagers] ∧
    (workerPreamble cfgZero rfpW ++ [] ++
        [Event.writeToParentProcess (finishedKey cfgZero) "done"]).filter isWriteToParent =
      [Event.writeToParentProcess (finishedKey cfgZero) "done"] ∧
    (workerPreamble cfgZero rfpW ++ [] ++
        [Event.writeToParentProcess (finishedKey cfgZero) "done"]).getLast? =
      some (Event.writeToParentProcess (finishedKey cfgZero) "done") ∧
    ∃ s ltr, LoopReach optsWorker cfgZero singlePartTransferEffect s ltr ∧
      s.phase = LoopPhase.done ∧
      workerPreamble cfgZero rfpW ++ [] ++
          [Event.writeToParentProcess (finishedKey cfgZero) "done"] =
        workerPreamble cfgZero rfpW ++ ltr ++
          [Event.writeToParentProcess (finishedKey cfgZero) "done"] :=
  c5_worker_protocol optsWorker cfgZero addrForW rfpW singlePartTransferEffect
    rfl rfl _ (PerformMeasurementRun.worker rfl rfl zeroRun_reach rfl)

/-- C6: for any interleaving and any mix of completion error codes, the
issuance loop invokes the transfer function exactly once per index, never
more than `numTransfers` times, exactly `numTransfers` times in any run
that reaches `done`; every non-success completion is logged yet still
counted as completed; and (cap at least 1) the loop is never stuck before
`done` — no error aborts it and no error propagates out. -/
theorem c6_error_tolerant_issuance
    (opts : CanaryOptions) (cfg : MeasurementConfig) (eff : CompletionEffect)
    (s : LoopState) (tr : List Event) (hr : LoopReach opts cfg eff s tr) :
    (tr.filter isInvoke).length = s.idx ∧
    s.idx ≤ cfg.numTransfers ∧
    (s.phase = LoopPhase.done →
      (tr.filter isInvoke).length = cfg.numTransfers ∧
      s.completed = cfg.numTransfers) ∧
    (∀ j c, Event.transferCompleted j c ∈ tr → c ≠ AWS_ERROR_SUCCESS →
      Event.logTransferError c ∈ tr) ∧
    (1 ≤ cfg.numConcurrentTransfers → s.phase ≠ LoopPhase.done →
      ∃ es s', LoopStep cfg eff s es s') := by
  have hinv := loopInv_of_reach hr
  refine ⟨?_, hinv.idx_le, ?_, hinv.logs, ?_⟩
  · rw [hinv.invokes_eq]
    simp
  · intro hdone
    have hidx := hinv.phase_idx (Or.inr hdone)
    have hge := hinv.done_completed hdone
    have hcnt := hinv.count_eq
    constructor
    · rw [hinv.invokes_eq]
      simp [hidx]
    · omega
  · intro hcap hnd
    cases hph : s.phase with
    | atLoopHead =>
      by_cases hlt : s.idx < cfg.numTransfers
      · exact ⟨_, _, LoopStep.issue s hph hlt⟩
      · exact ⟨_, _, LoopStep.exitLoop s hph hlt⟩
    | waitSlot =>
      cases hpend : s.pending with
      | nil =>
        refine ⟨_, _, LoopStep.slotOk s hph ?_⟩
        rw [hinv.inflight_eq, hpend]
        simpa using hcap
      | cons a t =>
        exact ⟨_, _, LoopStep.complete s a 0 (by rw [hpend]; exact List.mem_cons_self a t)⟩
    | waitAll =>
      cases hpend : s.pending with
      | nil =>
        refine ⟨_, _, LoopStep.allOk s hph ?_⟩
        have hcnt := hinv.count_eq
        have hidx := hinv.phase_idx (Or.inl hph)
        rw [hpend] at hcnt
        simp at hcnt
        omega
      | cons a t =>
        exact ⟨_, _, LoopStep.complete s a 0 (by rw [hpend]; exact List.mem_cons_self a t)⟩
    | done => exact absurd hph hnd

/-- C6 witness: instantiated on a concrete completed run whose single
transfer failed with error code 7 — it was logged, counted as completed,
and the loop still invoked the transfer function exactly once. -/
theorem c6_witness :
    (errDoneTrace.filter isInvoke).length = errDoneState.idx ∧
    errDoneState.idx ≤ cfgDownOne.numTransfers ∧
    (errDoneState.phase = LoopPhase.done →
      (errDoneTrace.filter isInvoke).length = cfgDownOne.numTransfers ∧
      errDoneState.completed = cfgDownOne.numTransfers) ∧
    (∀ j c, Event.transferCompleted j c ∈ errDoneTrace → c ≠ AWS_ERROR_SUCCESS →
      Event.logTransferError c ∈ errDoneTrace) ∧
    (1 ≤ cfgDownOne.numConcurrentTransfers → errDoneState.phase ≠ LoopPhase.done →
      ∃ es s', LoopStep cfgDownOne singlePartTransferEffect errDoneState es s') :=
  c6_error_tolerant_issuance optsStandalone cfgDownOne singlePartTransferEffect
    errDoneState errDoneTrace errRun_reach

/-- C7: when the pulse task fires with cancelled status it returns at once
(lines 424-427): it emits no action at all — no sampling, no metric data
point, no reschedule — so once the owner cancels the pending task, no
further sampling or rescheduling ever occurs. -/
theorem c7_cancelled_pulse_does_nothing (env : PulseEnv) :
    s_PulseMetricsTask TaskStatus.canceled env = [] ∧
    (∀ n v, PulseAction.addDataPoint n v ∉ s_PulseMetricsTask TaskStatus.canceled env) ∧
    (∀ t, PulseAction.scheduleTaskAt t ∉ s_PulseMetricsTask TaskStatus.canceled env) := by
  refine ⟨rfl, ?_, ?_⟩ <;> simp [s_PulseMetricsTask]

/-- C8: the constructor schedules the first pulse at the scheduling clock's
current time plus exactly 5000 ms (in nanoseconds) iff the process is not
a worker; and every non-cancelled firing samples the upload and download
transports' resolved-address counts, forwards each as a data point, and
reschedules at current time plus the same 5000 ms interval. -/
theorem c8_pulse_schedule (w : Bool) (env : PulseEnv) :
    AllocationMetricFrequencyNS = 5000 * 1000000 ∧
    constructorPulseActions w env =
      (if w then []
       else [PulseAction.scheduleTaskAt (env.now + 5000 * 1000000)]) ∧
    s_PulseMetricsTask TaskStatus.runReady env =
      [PulseAction.addDataPoint "S3UploadAddressCount"
          (env.hostAddressCount env.uploadEndpoint),
       PulseAction.addDataPoint "S3DownloadAddressCount"
          (env.hostAddressCount env.downloadEndpoint),
       PulseAction.scheduleTaskAt (env.now + 5000 * 1000000)] := by
  refine ⟨rfl, ?_, rfl⟩
  cases w <;> rfl

/-- C9: with `numTransfers == 0` the loop issues nothing (every reachable
loop state has an empty trace, index 0 and completed count 0), both waits
pass immediately (the `done` state is reachable with no completion ever
delivered, since `0 >= 0`), and a worker still writes the finished token
before returning. -/
theorem c9_zero_transfers
    (opts : CanaryOptions) (cfg : MeasurementConfig)
    (addrFor : Nat → String) (rfp : String → String) (eff : CompletionEffect)
    (hn : cfg.numTransfers = 0) :
    (∀ s tr, LoopReach opts cfg eff s tr → tr = [] ∧ s.idx = 0 ∧ s.completed = 0) ∧
    LoopReach opts cfg eff { initLoopState opts with phase := LoopPhase.done } [] ∧
    (opts.isParentProcess = false → opts.isChildProcess = true →
      PerformMeasurementRun opts cfg addrFor rfp eff
        (workerPreamble cfg rfp ++ [] ++
          [Event.writeToParentProcess (finishedKey cfg) "done"])) := by
  have hreach : LoopReach opts cfg eff
      { initLoopState opts with phase := LoopPhase.done } [] := by
    have h0 := @LoopReach.init opts cfg eff
    have h1 := LoopReach.step h0 (LoopStep.exitLoop _ rfl (by simp [initLoopState, hn]))
    have h2 := LoopReach.step h1 (LoopStep.allOk _ rfl (by simp [hn]))
    exact h2
  refine ⟨?_, hreach, ?_⟩
  · intro s tr hr
    induction hr with
    | init => exact ⟨rfl, rfl, rfl⟩
    | step hr hs ih =>
      rename_i sc trc esc sc'
      obtain ⟨htr, hidx, hcmp⟩ := ih
      have hinv := loopInv_of_reach hr
      cases hs with
      | issue hph hlt =>
        have : False := by omega
        exact this.elim
      | complete j c hj =>
        have hcnt := hinv.count_eq
        have hpend : sc.pending = [] := by
          have hl : sc.pending.length = 0 := by omega
          exact List.length_eq_zero.mp hl
        rw [hpend] at hj
        simp at hj
      | exitLoop hph hge => exact ⟨by simp [htr], hidx, hcmp⟩
      | slotOk hph hlt => exact ⟨by simp [htr], hidx, hcmp⟩
      | allOk hph hge => exact ⟨by simp [htr], hidx, hcmp⟩
  · intro hpf hcf
    exact PerformMeasurementRun.worker hpf hcf hreach rfl

/-- C9 witness: instantiated on a concrete zero-transfer worker
configuration. -/
theorem c9_witness :
    (∀ s tr, LoopReach optsWorker cfgZero singlePartTransferEffect s tr →
      tr = [] ∧ s.idx = 0 ∧ s.completed = 0) ∧
    LoopReach optsWorker cfgZero singlePartTransferEffect
      { initLoopState optsWorker with phase := LoopPhase.done } [] ∧
    (optsWorker.isParentProcess = false → optsWorker.isChildProcess = true →
      PerformMeasurementRun optsWorker cfgZero addrForW rfpW singlePartTransferEffect
        (workerPreamble cfgZero rfpW ++ [] ++
          [Event.writeToParentProcess (finishedKey cfgZero) "done"])) :=
  c9_zero_transfers optsWorker cfgZero addrForW rfpW singlePartTransferEffect rfl

/-- C10: a worker-role execution never calls the transport's `WarmDNSCache`
operation, whatever the `DontWarmDNSCache` flag says (the flag is not even
inspected on the worker path, lines 75-83); the flag conditions warming
only in the coordinator and standalone branches, where a clear flag does
produce the warm call. -/
theorem c10_worker_never_warms
    (opts : CanaryOptions) (cfg : MeasurementConfig)
    (addrFor : Nat → String) (rfp : String → String) (eff : CompletionEffect)
    (hp : opts.isParentProcess = false) (hc : opts.isChildProcess = true)
    (tr : List Event) (hrun : PerformMeasurementRun opts cfg addrFor rfp eff tr) :
    (∀ n, Event.warmDNSCache n ∉ tr) ∧
    (cfg.flags.dontWarmDNSCache = false →
      Event.warmDNSCache cfg.numConcurrentTransfers ∈ coordinatorEvents cfg addrFor ∧
      Event.warmDNSCache cfg.numConcurrentTransfers ∈ standalonePreamble cfg) := by
  cases hrun with
  | coordinator hpf => rw [hp] at hpf; exact Bool.noConfusion hpf
  | standalone hpf hcf hr hdone => rw [hc] at hcf; exact Bool.noConfusion hcf
  | worker hpf hcf hr hdone =>
    constructor
    · intro n hmem
      simp only [List.mem_append] at hmem
      rcases hmem with (hmem | hmem) | hmem
      · simp [workerPreamble] at hmem
      · exact loop_trace_no_warm hr n hmem
      · simp at hmem
    · intro hflag
      constructor <;> simp [coordinatorEvents, standalonePreamble, hflag]

/-- C10 witness: instantiated on a concrete zero-transfer worker run with
the `DontWarmDNSCache` flag clear. -/
theorem c10_witness :
    (∀ n, Event.warmDNSCache n ∉
      workerPreamble cfgZero rfpW ++ [] ++
        [Event.writeToParentProcess (finishedKey cfgZero) "done"]) ∧
    (cfgZero.flags.dontWarmDNSCache = false →
      Event.warmDNSCache cfgZero.numConcurrentTransfers ∈
        coordinatorEvents cfgZero addrForW ∧
      Event.warmDNSCache cfgZero.numConcurrentTransfers ∈
        standalonePreamble cfgZero) :=
  c10_worker_never_warms optsWorker cfgZero addrForW rfpW singlePartTransferEffect
    rfl rfl _ (PerformMeasurementRun.worker rfl rfl zeroRun_reach rfl)

end Canary